import Mathlib

/-!
Verification of the live-state layer of the forex trading dashboard:
the session-token guard (`frontend/src/lib/auth.ts`), the resource cache
semantics used by the data hooks (`frontend/src/lib/hooks.ts` and the
hand-rolled `useOpenTrades` hook), and the pure analytics functions
(`calcDrawdown` in `ActivityPanel.tsx` / `PerformancePanel.tsx`, the
expectancy display formula, and the backtest comparison diff).

JavaScript numbers are embedded as rationals (`ℚ`), integer timestamps as
`Int`/`ℕ`.  Fallible operations return `Option`.
-/

/-! ## Session Guard (`frontend/src/lib/auth.ts`) -/

/-- The decoded JWT payload shape `{ sub: string; exp: number }` used by
`getTokenPayload`; `exp` is seconds since epoch. -/
structure TokenPayload where
  sub : String
  exp : Int
deriving Repr, DecidableEq

/-- Splits a list of characters at every dot, mirroring the behaviour of
JavaScript `token.split('.')`: `n` dots yield `n + 1` (possibly empty)
segments, and the empty string yields one empty segment. -/
def splitDots : List Char → List (List Char)
  | [] => [[]]
  | c :: cs =>
    match splitDots cs with
    | [] => [[c]]
    | r :: rs => if c = '.' then [] :: r :: rs else (c :: r) :: rs

/-- Embedding of `token.split('.')` from `getTokenPayload`. -/
def tokenSplit (token : String) : List String :=
  (splitDots token.data).map (fun l => String.mk l)

/-- Embedding of `getTokenPayload` (auth.ts lines 22–33).  The stored token
comes from `localStorage` (`none` when absent); `decodePayload` stands for
`JSON.parse(atob(·))` on the middle segment, returning `none` where the
JavaScript original would throw and be caught (the surrounding
`try`/`catch` returns `null`). -/
def getTokenPayload (decodePayload : String → Option TokenPayload)
    (storedToken : Option String) : Option TokenPayload :=
  match storedToken with
  | none => none
  | some token =>
    let parts := tokenSplit token
    if parts.length = 3 then decodePayload (parts.getD 1 "") else none

/-- Embedding of `isAuthenticated` (auth.ts lines 36–41); `now` is
`Date.now()` in milliseconds, `exp` is in seconds. -/
def isAuthenticated (decodePayload : String → Option TokenPayload)
    (storedToken : Option String) (now : Int) : Bool :=
  match getTokenPayload decodePayload storedToken with
  | none => false
  | some payload => decide (payload.exp * 1000 > now)

/-- A concrete decoder standing for `JSON.parse(atob(·))` on a token whose
middle segment is the literal `payload` and decodes to subject `user` with
expiry `e`; every other segment fails to decode. -/
def sampleDecode (e : Int) : String → Option TokenPayload :=
  fun s => if s = "payload" then some ⟨"user", e⟩ else none

/-- C1: `isAuthenticated()` is true iff `getTokenPayload()` succeeds and the
payload's expiry in seconds times 1000 is strictly greater than the current
time in milliseconds; concretely it is false for a token expiring one second
in the past (`exp = 999` at `now = 1000000` ms), true one second in the
future (`exp = 1001`), and false — without throwing — for a token with
fewer than three dot-separated segments. -/
theorem isAuthenticated_iff_valid_unexpired_payload :
    (∀ (dec : String → Option TokenPayload) (stored : Option String) (now : Int),
        isAuthenticated dec stored now = true ↔
          ∃ p, getTokenPayload dec stored = some p ∧ p.exp * 1000 > now)
  ∧ isAuthenticated (sampleDecode 999) (some "hdr.payload.sig") 1000000 = false
  ∧ isAuthenticated (sampleDecode 1001) (some "hdr.payload.sig") 1000000 = true
  ∧ (∀ (dec : String → Option TokenPayload) (now : Int),
        isAuthenticated dec (some "hdr.payload") now = false) := by
  refine ⟨?_, by decide, by decide, ?_⟩
  · intro dec stored now
    unfold isAuthenticated
    cases h : getTokenPayload dec stored with
    | none => simp [h]
    | some p => simp [h, decide_eq_true_iff]
  · intro dec now
    have hlen : (tokenSplit "hdr.payload").length = 2 := by decide
    unfold isAuthenticated getTokenPayload
    simp [hlen]

/-! ## Drawdown analytics (`ActivityPanel.tsx` lines 136–157 and
`PerformancePanel.tsx` lines 29–45) -/

/-- One point of the equity curve: `{ date: string; equity: number }`. -/
structure EquityPoint where
  date : String
  equity : ℚ
deriving Repr, DecidableEq

/-- The record returned by `calcDrawdown` in `ActivityPanel.tsx`. -/
structure DrawdownResult where
  maxDrawdown : ℚ
  peakIndex : ℕ
  troughIndex : ℕ
  peakValue : ℚ
  pct : ℚ
deriving Repr, DecidableEq

/-- The mutable loop state of `calcDrawdown`: `peak`, `peakIdx`, `maxDd`,
`troughIdx`, `peakAtMaxDd`. -/
structure DdScan where
  peak : ℚ
  peakIdx : ℕ
  maxDd : ℚ
  troughIdx : ℕ
  peakAtMaxDd : ℚ
deriving Repr, DecidableEq

/-- Out-of-range array reads never happen in the scan; `List.getD` with this
default embeds `curve[i]`. -/
def ddDefault : EquityPoint := ⟨"", 0⟩

/-- Second `if` of the loop body: `if (dd > maxDd) { maxDd = dd; troughIdx = i;
peakAtMaxDd = curve[peakIdx].equity; }` where `dd = peak - v`. -/
def ddRecord (curve : List EquityPoint) (st : DdScan) (i : ℕ) : DdScan :=
  if st.maxDd < st.peak - (curve.getD i ddDefault).equity then
    { st with
        maxDd := st.peak - (curve.getD i ddDefault).equity
        troughIdx := i
        peakAtMaxDd := (curve.getD st.peakIdx ddDefault).equity }
  else st

/-- One iteration of the scan: first `if (v > peak) { peak = v; peakIdx = i; }`,
then the drawdown-recording `if`. -/
def ddStep (curve : List EquityPoint) (st : DdScan) (i : ℕ) : DdScan :=
  ddRecord curve
    (if st.peak < (curve.getD i ddDefault).equity then
      { st with peak := (curve.getD i ddDefault).equity, peakIdx := i }
    else st) i

/-- Embedding of `calcDrawdown` from `ActivityPanel.tsx`: returns `null`
(`none`) for an empty curve, otherwise scans the whole curve starting from
`peak = curve[0].equity` and derives `pct` from `peakAtMaxDd`. -/
def calcDrawdown (curve : List EquityPoint) : Option DrawdownResult :=
  match curve with
  | [] => none
  | c0 :: rest =>
    let final := (List.range (c0 :: rest).length).foldl
      (ddStep (c0 :: rest)) ⟨c0.equity, 0, 0, 0, c0.equity⟩
    let pct := if 0 < final.peakAtMaxDd then final.maxDd / final.peakAtMaxDd * 100 else 0
    some ⟨final.maxDd, final.peakIdx, final.troughIdx, final.peakAtMaxDd, pct⟩

/-- Embedding of the `calcDrawdown` variant in `PerformancePanel.tsx`, which
runs the same scan (without tracking a trough index) and returns only the
percentage, `0` for an empty curve. -/
def calcDrawdownPerf (curve : List EquityPoint) : ℚ :=
  match curve with
  | [] => 0
  | c0 :: rest =>
    let final := (List.range (c0 :: rest).length).foldl
      (ddStep (c0 :: rest)) ⟨c0.equity, 0, 0, 0, c0.equity⟩
    if 0 < final.peakAtMaxDd then final.maxDd / final.peakAtMaxDd * 100 else 0

/-- The two example curves of the spec, with placeholder dates. -/
def flatCurve : List EquityPoint := [⟨"d0", 100⟩, ⟨"d1", 100⟩]

def vCurve : List EquityPoint := [⟨"d0", 100⟩, ⟨"d1", 50⟩, ⟨"d2", 120⟩]

/-- C2: the spec's concrete drawdown examples.  On the flat curve
`[100, 100]` the maximum drawdown is `0`; on `[100, 50, 120]` the scan
returns `maxDrawdown = 50`, `pct = 50`, trough at index `1` and peak value
`100` (and the `PerformancePanel` variant returns the same percentage). -/
theorem calcDrawdown_spec_examples :
    (calcDrawdown flatCurve).map DrawdownResult.maxDrawdown = some 0
  ∧ (calcDrawdown vCurve).map DrawdownResult.maxDrawdown = some 50
  ∧ (calcDrawdown vCurve).map DrawdownResult.pct = some 50
  ∧ (calcDrawdown vCurve).map DrawdownResult.troughIndex = some 1
  ∧ (calcDrawdown vCurve).map DrawdownResult.peakValue = some 100
  ∧ calcDrawdownPerf vCurve = 50 := by
  refine ⟨?_, ?_, ?_, ?_, ?_, ?_⟩ <;>
    norm_num [calcDrawdown, calcDrawdownPerf, flatCurve, vCurve, ddStep, ddRecord,
      List.range_succ]

/-- C10: `peakIndex` tracks the running maximum at the end of the scan, not
the peak that produced the maximum drawdown, so it can disagree with
`peakValue`: on `[100, 50, 120]` the result has `peakValue = 100` but
`peakIndex = 2`, where the curve holds `120`; hence
`curve[peakIndex].equity = peakValue` fails in general. -/
theorem calcDrawdown_peakIndex_mismatch :
    (calcDrawdown vCurve).map DrawdownResult.peakIndex = some 2
  ∧ (calcDrawdown vCurve).map DrawdownResult.peakValue = some 100
  ∧ (vCurve.getD 2 ddDefault).equity = 120
  ∧ ¬ (∀ curve r, calcDrawdown curve = some r →
        (curve.getD r.peakIndex ddDefault).equity = r.peakValue) := by
  have hc : calcDrawdown vCurve = some ⟨50, 2, 1, 100, 50⟩ := by
    norm_num [calcDrawdown, vCurve, ddStep, ddRecord, List.range_succ]
  refine ⟨by rw [hc]; rfl, by rw [hc]; rfl, by decide, fun h => ?_⟩
  have h120 := h vCurve ⟨50, 2, 1, 100, 50⟩ hc
  exact absurd h120 (by decide)

/-- C4: `calcDrawdown` is total and zeroed on degenerate input: it returns
the `null` sentinel on the empty curve, a result with `maxDrawdown = 0` and
`pct = 0` on any single-point curve, and in every returned result
`pct = maxDrawdown / peakValue × 100` when `peakValue > 0` and `0`
otherwise; the `PerformancePanel` variant likewise returns `0` for empty
and single-point curves. -/
theorem calcDrawdown_total_degenerate :
    calcDrawdown [] = none
  ∧ (∀ p : EquityPoint, ∃ r, calcDrawdown [p] = some r ∧
      r.maxDrawdown = 0 ∧ r.pct = 0)
  ∧ (∀ curve r, calcDrawdown curve = some r →
      r.pct = if 0 < r.peakValue then r.maxDrawdown / r.peakValue * 100 else 0)
  ∧ calcDrawdownPerf [] = 0
  ∧ (∀ p : EquityPoint, calcDrawdownPerf [p] = 0) := by
  refine ⟨rfl, ?_, ?_, rfl, ?_⟩
  · intro p
    refine ⟨⟨0, 0, 0, p.equity, 0⟩, ?_, rfl, rfl⟩
    simp [calcDrawdown, ddStep, ddRecord, List.range_succ]
  · intro curve r h
    cases curve with
    | nil => simp [calcDrawdown] at h
    | cons c0 rest =>
      simp only [calcDrawdown, Option.some.injEq] at h
      subst h
      rfl
  · intro p
    simp [calcDrawdownPerf, ddStep, ddRecord, List.range_succ]

/-- Witness for C4: concrete instance of the `pct` branch equation on the
result of `calcDrawdown [100, 50, 120]`. -/
theorem calcDrawdown_total_degenerate_witness :
    calcDrawdown vCurve = some ⟨50, 2, 1, 100, 50⟩ ∧
    (50 : ℚ) = if 0 < (100 : ℚ) then 50 / 100 * 100 else 0 := by
  have hc : calcDrawdown vCurve = some ⟨50, 2, 1, 100, 50⟩ := by
    norm_num [calcDrawdown, vCurve, ddStep, ddRecord, List.range_succ]
  exact ⟨hc, calcDrawdown_total_degenerate.2.2.1 vCurve ⟨50, 2, 1, 100, 50⟩ hc⟩

/-! ### Invariant of the drawdown scan (for C3) -/

/-- Invariant maintained by the scan when all equities are nonnegative:
the recorded drawdown is nonnegative and bounded by the recorded peak, and
`peak` always equals `curve[peakIdx].equity`. -/
def ddInv (curve : List EquityPoint) (st : DdScan) : Prop :=
  0 ≤ st.maxDd ∧ st.maxDd ≤ st.peakAtMaxDd ∧
    st.peak = (curve.getD st.peakIdx ddDefault).equity

theorem getD_equity_nonneg (curve : List EquityPoint)
    (h : ∀ p ∈ curve, 0 ≤ p.equity) (i : ℕ) :
    0 ≤ (curve.getD i ddDefault).equity := by
  by_cases hi : i < curve.length
  · rw [List.getD_eq_getElem curve ddDefault hi]
    exact h _ (List.getElem_mem hi)
  · rw [List.getD_eq_default curve ddDefault (le_of_not_lt hi)]
    exact le_refl 0

theorem ddRecord_inv (curve : List EquityPoint)
    (hpos : ∀ p ∈ curve, 0 ≤ p.equity) (st : DdScan) (i : ℕ)
    (h : ddInv curve st) : ddInv curve (ddRecord curve st i) := by
  obtain ⟨h1, h2, h3⟩ := h
  have hv : 0 ≤ (curve.getD i ddDefault).equity := getD_equity_nonneg curve hpos i
  unfold ddRecord
  split
  · next hlt =>
    refine ⟨le_of_lt (lt_of_le_of_lt h1 hlt), ?_, h3⟩
    show st.peak - (curve.getD i ddDefault).equity ≤
      (curve.getD st.peakIdx ddDefault).equity
    rw [← h3]
    exact sub_le_self st.peak hv
  · exact ⟨h1, h2, h3⟩

theorem ddStep_inv (curve : List EquityPoint)
    (hpos : ∀ p ∈ curve, 0 ≤ p.equity) (st : DdScan) (i : ℕ)
    (h : ddInv curve st) : ddInv curve (ddStep curve st i) := by
  obtain ⟨h1, h2, h3⟩ := h
  unfold ddStep
  apply ddRecord_inv curve hpos _ i
  split
  · exact ⟨h1, h2, rfl⟩
  · exact ⟨h1, h2, h3⟩

theorem foldl_ddStep_inv (curve : List EquityPoint)
    (hpos : ∀ p ∈ curve, 0 ≤ p.equity) :
    ∀ (idxs : List ℕ) (st : DdScan), ddInv curve st →
      ddInv curve (idxs.foldl (ddStep curve) st)
  | [], _, h => h
  | i :: idxs, st, h =>
    foldl_ddStep_inv curve hpos idxs (ddStep curve st i)
      (ddStep_inv curve hpos st i h)

/-- C3: on every non-empty curve whose equities are all nonnegative,
`calcDrawdown` returns a result with `maxDrawdown ≥ 0` and
`pct ∈ [0, 100]`. -/
theorem calcDrawdown_bounds (curve : List EquityPoint) (hne : curve ≠ [])
    (hpos : ∀ p ∈ curve, 0 ≤ p.equity) :
    ∃ r, calcDrawdown curve = some r ∧
      0 ≤ r.maxDrawdown ∧ 0 ≤ r.pct ∧ r.pct ≤ 100 := by
  cases curve with
  | nil => exact absurd rfl hne
  | cons c0 rest =>
    have h0 : (0 : ℚ) ≤ c0.equity := hpos c0 (List.mem_cons_self c0 rest)
    have hinit : ddInv (c0 :: rest) ⟨c0.equity, 0, 0, 0, c0.equity⟩ :=
      ⟨le_refl 0, h0, rfl⟩
    obtain ⟨h1, h2, _⟩ := foldl_ddStep_inv (c0 :: rest) hpos
      (List.range (c0 :: rest).length) ⟨c0.equity, 0, 0, 0, c0.equity⟩ hinit
    refine ⟨_, rfl, h1, ?_, ?_⟩
    · show (0 : ℚ) ≤ if 0 < _ then _ / _ * 100 else 0
      split
      · next hP =>
        exact mul_nonneg (div_nonneg h1 (le_of_lt hP)) (by norm_num)
      · exact le_refl 0
    · show (if 0 < _ then _ / _ * 100 else (0 : ℚ)) ≤ 100
      split
      · next hP =>
        calc _ / _ * 100 ≤ 1 * 100 :=
              mul_le_mul_of_nonneg_right ((div_le_one hP).mpr h2) (by norm_num)
          _ = 100 := one_mul 100
      · norm_num

/-- Witness for C3 at the curve `[100, 50, 120]`. -/
theorem calcDrawdown_bounds_witness :
    ∃ r, calcDrawdown vCurve = some r ∧
      0 ≤ r.maxDrawdown ∧ 0 ≤ r.pct ∧ r.pct ≤ 100 :=
  calcDrawdown_bounds vCurve (by decide) (by decide)

/-! ## Resource cache (`frontend/src/lib/hooks.ts` and the hand-rolled
`useOpenTrades` hook) -/

/-- The per-key cache entry: last good value and last fetch error. -/
structure CacheEntry (α : Type) where
  lastValue : Option α
  lastError : Option String

/-- Outcome of one fetch cycle: a decoded 2xx response, or a failure
(non-2xx status or transport error). -/
inductive FetchOutcome (α : Type)
  | success (v : α)
  | failure (e : String)

/-- Modelled from the spec: the SWR revalidation cache backing the hooks in
`lib/hooks.ts` is library code not present in the repository's sources; per
the spec's fetch-outcome handling, a successful fetch stores the decoded
value and clears the error, while a non-2xx response or transport failure
sets `lastError` and leaves `lastValue` untouched. -/
def applyFetchOutcome {α : Type} (entry : CacheEntry α) :
    FetchOutcome α → CacheEntry α
  | .success v => { lastValue := some v, lastError := none }
  | .failure e => { entry with lastError := some e }

/-- Embedding of the `isLive` flag every hook in `lib/hooks.ts` derives:
`!error && !!data`. -/
def isLive {α : Type} (entry : CacheEntry α) : Bool :=
  entry.lastError.isNone && entry.lastValue.isSome

/-- The staleness indicator the view layer consumes: the negation of
`isLive`. -/
def isStale {α : Type} (entry : CacheEntry α) : Bool :=
  !isLive entry

/-- The local state of the hand-rolled `useOpenTrades` hook:
`useState([])` for the trade list and a `loading` flag. -/
structure OpenTradesHookState (τ : Type) where
  trades : List τ
  loading : Bool

/-- How one `refresh` cycle of the hand-rolled hook ends: 2xx with a decoded
trade list (`data.trades || []`), non-2xx (silently ignored), or a thrown
fetch error (logged). -/
inductive OpenTradesFetchResult (τ : Type)
  | ok (trades : List τ)
  | notOk
  | transportFailure

/-- Embedding of the response handling in the hand-rolled `useOpenTrades`
`refresh`: only a 2xx response calls `setTrades`; a non-2xx response or a
thrown error leaves `trades` untouched; `loading` is cleared in
`finally`. -/
def applyOpenTradesFetch {τ : Type} (s : OpenTradesHookState τ) :
    OpenTradesFetchResult τ → OpenTradesHookState τ
  | .ok trades => { trades := trades, loading := false }
  | .notOk => { s with loading := false }
  | .transportFailure => { s with loading := false }

/-- C5: a failed fetch leaves the previously cached value unchanged — the
last good value is never cleared — while the staleness indicator becomes
true (`isLive = false`); `isLive` is false exactly when an error is
recorded or no successful fetch has ever completed; and the hand-rolled
`useOpenTrades` likewise leaves its trade list untouched on a non-2xx
response or transport failure. -/
theorem fetch_failure_preserves_lastValue :
    (∀ (α : Type) (entry : CacheEntry α) (e : String),
        (applyFetchOutcome entry (.failure e)).lastValue = entry.lastValue
      ∧ isStale (applyFetchOutcome entry (.failure e)) = true
      ∧ isLive (applyFetchOutcome entry (.failure e)) = false)
  ∧ (∀ (α : Type) (entry : CacheEntry α),
        isStale entry = true ↔ entry.lastError ≠ none ∨ entry.lastValue = none)
  ∧ (∀ (τ : Type) (s : OpenTradesHookState τ),
        (applyOpenTradesFetch s .notOk).trades = s.trades
      ∧ (applyOpenTradesFetch s .transportFailure).trades = s.trades) := by
  refine ⟨?_, ?_, ?_⟩
  · intro α entry e
    exact ⟨rfl, by simp [isStale, isLive, applyFetchOutcome], by
      simp [isLive, applyFetchOutcome]⟩
  · intro α entry
    cases he : entry.lastError <;> cases hv : entry.lastValue <;>
      simp [isStale, isLive, he, hv]
  · intro τ s
    exact ⟨rfl, rfl⟩

/-! ### In-flight request accounting (C6) -/

/-- Events a single resource key sees: a poll-timer tick, a manual
`refresh()` call, and the completion of an issued fetch (successful with a
decoded value, or failed). -/
inductive FetchEvent (τ : Type)
  | tick
  | refreshCall
  | completeOk (v : τ)
  | completeErr

/-- Per-key accounting: how many fetches are currently in flight, how many
requests were ever issued, and the last applied value. -/
structure KeyFetchState (τ : Type) where
  inFlightCount : ℕ
  issued : ℕ
  value : Option τ

/-- The state before any fetch. -/
def keyFetchInit {τ : Type} : KeyFetchState τ := ⟨0, 0, none⟩

/-- Modelled from the spec: the per-key revalidation cycle of the SWR
library backing `lib/hooks.ts` (the library is not part of the repository's
sources).  A tick or `refresh()` that finds a fetch in flight is skipped /
attaches to it instead of issuing a second request; a completion applies
its response and frees the in-flight slot. -/
def swrStep {τ : Type} (s : KeyFetchState τ) : FetchEvent τ → KeyFetchState τ
  | .tick =>
      if s.inFlightCount ≠ 0 then s
      else { s with inFlightCount := s.inFlightCount + 1, issued := s.issued + 1 }
  | .refreshCall =>
      if s.inFlightCount ≠ 0 then s
      else { s with inFlightCount := s.inFlightCount + 1, issued := s.issued + 1 }
  | .completeOk v => { s with inFlightCount := s.inFlightCount - 1, value := some v }
  | .completeErr => { s with inFlightCount := s.inFlightCount - 1 }

/-- Embedding of the hand-rolled `useOpenTrades` polling cycle: both the
`setInterval` tick and a manual `refresh()` call invoke `refresh`, which
issues a fetch unconditionally — the hook keeps no in-flight guard; a 2xx
completion stores the response's trade list. -/
def handRolledStep {τ : Type} (s : KeyFetchState τ) :
    FetchEvent τ → KeyFetchState τ
  | .tick => { s with inFlightCount := s.inFlightCount + 1, issued := s.issued + 1 }
  | .refreshCall =>
      { s with inFlightCount := s.inFlightCount + 1, issued := s.issued + 1 }
  | .completeOk v => { s with inFlightCount := s.inFlightCount - 1, value := some v }
  | .completeErr => { s with inFlightCount := s.inFlightCount - 1 }

/-- C6 counterexample: in the hand-rolled `useOpenTrades`, two poll ticks
with no intervening completion (a response slower than the 5-second
interval) leave two concurrent fetches in flight for the same key, so the
at-most-one-in-flight property fails as stated. -/
theorem useOpenTrades_overlapping_fetches :
    ([FetchEvent.tick, FetchEvent.tick].foldl
        (handRolledStep (τ := Unit)) keyFetchInit).inFlightCount = 2
  ∧ ¬ (∀ events : List (FetchEvent Unit),
        (events.foldl handRolledStep keyFetchInit).inFlightCount ≤ 1) :=
  ⟨rfl, fun h => absurd (h [FetchEvent.tick, FetchEvent.tick]) (by decide)⟩

theorem swrStep_le_one {τ : Type} (s : KeyFetchState τ) (e : FetchEvent τ)
    (h : s.inFlightCount ≤ 1) : (swrStep s e).inFlightCount ≤ 1 := by
  cases e with
  | tick =>
    simp only [swrStep]
    split
    · exact h
    · show s.inFlightCount + 1 ≤ 1
      omega
  | refreshCall =>
    simp only [swrStep]
    split
    · exact h
    · show s.inFlightCount + 1 ≤ 1
      omega
  | completeOk v =>
    show s.inFlightCount - 1 ≤ 1
    omega
  | completeErr =>
    show s.inFlightCount - 1 ≤ 1
    omega

theorem foldl_swrStep_le_one {τ : Type} :
    ∀ (events : List (FetchEvent τ)) (s : KeyFetchState τ),
      s.inFlightCount ≤ 1 → (events.foldl swrStep s).inFlightCount ≤ 1
  | [], _, h => h
  | e :: es, s, h => foldl_swrStep_le_one es (swrStep s e) (swrStep_le_one s e h)

/-- C6 amended: for the SWR-backed hooks of `lib/hooks.ts` (modelled from
the spec) at most one fetch per key is ever in flight, and a tick or
`refresh()` arriving while one is in flight changes nothing — no second
concurrent request is issued; every completed response is applied as the
new value, so the eventual cache update reflects the most recently
completed response (also in the hand-rolled hook).  The hand-rolled
`useOpenTrades`, however, issues a fresh request on every tick or
`refresh()` call, so its fetches can overlap. -/
theorem swr_single_inflight (τ : Type) :
    (∀ events : List (FetchEvent τ),
        (events.foldl swrStep keyFetchInit).inFlightCount ≤ 1)
  ∧ (∀ s : KeyFetchState τ, s.inFlightCount ≠ 0 →
        swrStep s .tick = s ∧ swrStep s .refreshCall = s)
  ∧ (∀ (s : KeyFetchState τ) (v : τ),
        (swrStep s (.completeOk v)).value = some v
      ∧ (handRolledStep s (.completeOk v)).value = some v)
  ∧ (∀ s : KeyFetchState τ,
        (handRolledStep s .tick).issued = s.issued + 1
      ∧ (handRolledStep s .refreshCall).issued = s.issued + 1) := by
  refine ⟨?_, ?_, ?_, ?_⟩
  · intro events
    exact foldl_swrStep_le_one events keyFetchInit (show (0 : ℕ) ≤ 1 by omega)
  · intro s h
    simp [swrStep, h]
  · intro s v
    exact ⟨rfl, rfl⟩
  · intro s
    exact ⟨rfl, rfl⟩

/-- Witness for the amended C6: a tick and a `refresh()` finding one fetch
in flight leave the state unchanged. -/
theorem swr_single_inflight_witness :
    swrStep (⟨1, 1, none⟩ : KeyFetchState Unit) FetchEvent.tick = ⟨1, 1, none⟩
  ∧ swrStep (⟨1, 1, none⟩ : KeyFetchState Unit) FetchEvent.refreshCall
      = ⟨1, 1, none⟩ :=
  (swr_single_inflight Unit).2.1 ⟨1, 1, none⟩ (by decide)

/-! ## Mutating actions (`closeTrade` in the open-trades panel,
`updateSettings` in `lib/hooks.ts`) -/

/-- What the error branch of `closeTrade` can read from a non-2xx response:
a JSON body with a `detail` field, a JSON body without one, a non-JSON body
whose text is readable, or a body that cannot be read at all. -/
inductive CloseErrorBody
  | jsonDetail (detail : String)
  | jsonOther
  | textBody (body : String)
  | unreadable

/-- Embedding of the message extraction in `closeTrade`:
`errorObj.detail || errorMsg` with fallback `Failed to close trade`, the
raw `response.text()` for a non-JSON body, and the fallback when even
`text()` fails.  JavaScript `||` treats the empty string as falsy. -/
def closeTradeErrorMsg : CloseErrorBody → String
  | .jsonDetail d => if d = "" then "Failed to close trade" else d
  | .jsonOther => "Failed to close trade"
  | .textBody b => b
  | .unreadable => "Failed to close trade"

/-- How the close-trade `POST` ends. -/
inductive CloseOutcome
  | ok
  | httpError (body : CloseErrorBody)
  | transportFailure (msg : String)

/-- Net effect of one mutating action: whether the cache refresh was
triggered, and the message surfaced to the user (`none` on success). -/
structure MutationRun where
  refreshed : Bool
  surfaced : Option String
deriving DecidableEq

/-- Embedding of `closeTrade` in the open-trades panel: an id missing from
the current trade list alerts `Trade not found.` and sends no request; a
2xx response calls `refresh()`; a non-2xx response throws the extracted
message and a transport failure throws its own message, both reaching the
catch-and-alert path with `refresh()` never called. -/
def closeTradeRun (found : Bool) (outcome : CloseOutcome) : MutationRun :=
  if !found then ⟨false, some "Trade not found."⟩
  else
    match outcome with
    | .ok => ⟨true, none⟩
    | .httpError body => ⟨false, some (closeTradeErrorMsg body)⟩
    | .transportFailure msg => ⟨false, some msg⟩

/-- The settings `PUT` response as `updateSettings` sees it: the ok flag
and a body that may carry a server-provided message (the body is never read
on error). -/
structure SettingsResponse where
  ok : Bool
  bodyMessage : Option String

/-- Embedding of `updateSettings` in `lib/hooks.ts`: a non-2xx response
throws `Failed to save settings` before `mutate()` is reached; only a 2xx
response triggers the cache refresh. -/
def updateSettingsRun (res : SettingsResponse) : MutationRun :=
  if res.ok then ⟨true, none⟩ else ⟨false, some "Failed to save settings"⟩

/-- C7 counterexample: a failed settings save whose response body carries
the message `boom` is surfaced with the generic fallback, not with the
message present in the body. -/
theorem updateSettings_ignores_body_message :
    (updateSettingsRun ⟨false, some "boom"⟩).surfaced
        = some "Failed to save settings"
  ∧ (updateSettingsRun ⟨false, some "boom"⟩).surfaced ≠ some "boom" :=
  ⟨rfl, by decide⟩

/-- C7 amended: a failed mutation triggers no cache refresh — the refresh
runs only after a 2xx response, so a failed mutation leaves the cache
exactly as it was — and the failure is always surfaced, never silently
swallowed; `closeTrade` surfaces the message extracted from the response
body when present (otherwise a generic fallback), while `updateSettings`
always surfaces the generic `Failed to save settings` regardless of the
response body. -/
theorem failed_mutation_preserves_cache :
    (∀ found body, (closeTradeRun found (.httpError body)).refreshed = false)
  ∧ (∀ found msg,
        (closeTradeRun found (.transportFailure msg)).refreshed = false)
  ∧ (∀ found outcome, (closeTradeRun found outcome).refreshed = true →
        found = true ∧ outcome = .ok)
  ∧ (∀ found outcome, (closeTradeRun found outcome).refreshed = true
      ∨ (closeTradeRun found outcome).surfaced ≠ none)
  ∧ (∀ body, closeTradeRun true (.httpError body)
        = ⟨false, some (closeTradeErrorMsg body)⟩)
  ∧ (∀ d, d ≠ "" → closeTradeErrorMsg (.jsonDetail d) = d)
  ∧ (∀ res, res.ok = false → (updateSettingsRun res).refreshed = false
      ∧ (updateSettingsRun res).surfaced = some "Failed to save settings") := by
  refine ⟨?_, ?_, ?_, ?_, ?_, ?_, ?_⟩
  · intro found body
    cases found <;> rfl
  · intro found msg
    cases found <;> rfl
  · intro found outcome h
    cases found with
    | false => simp [closeTradeRun] at h
    | true => cases outcome with
      | ok => exact ⟨rfl, rfl⟩
      | httpError body => exact absurd h (by simp [closeTradeRun])
      | transportFailure msg => exact absurd h (by simp [closeTradeRun])
  · intro found outcome
    cases found with
    | false => exact Or.inr (by simp [closeTradeRun])
    | true => cases outcome with
      | ok => exact Or.inl rfl
      | httpError body => exact Or.inr (by simp [closeTradeRun])
      | transportFailure msg => exact Or.inr (by simp [closeTradeRun])
  · intro body
    rfl
  · intro d hd
    simp [closeTradeErrorMsg, hd]
  · intro res h
    constructor <;> simp [updateSettingsRun, h]

/-- Witness for the amended C7: a concrete failed save and a concrete
extracted close-trade message. -/
theorem failed_mutation_preserves_cache_witness :
    closeTradeErrorMsg (CloseErrorBody.jsonDetail "margin check failed")
        = "margin check failed"
  ∧ (updateSettingsRun ⟨false, none⟩).refreshed = false
  ∧ (updateSettingsRun ⟨false, none⟩).surfaced = some "Failed to save settings"
  ∧ (true = true ∧ CloseOutcome.ok = CloseOutcome.ok) :=
  ⟨failed_mutation_preserves_cache.2.2.2.2.2.1 "margin check failed" (by decide),
   (failed_mutation_preserves_cache.2.2.2.2.2.2 ⟨false, none⟩ rfl).1,
   (failed_mutation_preserves_cache.2.2.2.2.2.2 ⟨false, none⟩ rfl).2,
   failed_mutation_preserves_cache.2.2.1 true CloseOutcome.ok rfl⟩

/-! ## Performance analytics formulas -/

/-- The expectancy value computed for display in `PerformancePanel.tsx`
(STREAKS group of `statGroups`): `(win_rate / 100) * avg_win -
((100 - win_rate) / 100) * Math.abs(avg_loss)`. -/
def expectancyDisplay (winRate avgWin avgLoss : ℚ) : ℚ :=
  winRate / 100 * avgWin - (100 - winRate) / 100 * |avgLoss|

/-- The spec's expectancy formula
`(winRate/100) × avgWin − (1 − winRate/100) × |avgLoss|`. -/
def expectancySpec (winRate avgWin avgLoss : ℚ) : ℚ :=
  winRate / 100 * avgWin - (1 - winRate / 100) * |avgLoss|

/-- C8: for every numeric `win_rate`, `avg_win`, `avg_loss`, the displayed
expectancy equals the spec's formula. -/
theorem expectancyDisplay_eq_spec (winRate avgWin avgLoss : ℚ) :
    expectancyDisplay winRate avgWin avgLoss
      = expectancySpec winRate avgWin avgLoss := by
  unfold expectancyDisplay expectancySpec
  ring

/-! ## Backtest comparison (C9) -/

/-- A backtest run's scalar summary as displayed by the backtest panel. -/
structure BacktestRun where
  pair : String
  startDate : String
  endDate : String
  totalTrades : ℤ
  netProfit : ℚ
  maxDrawdown : ℚ
  winRate : ℚ

/-- The `diff` block of a comparison result. -/
structure BacktestDiff where
  totalTradesDiff : ℤ
  netProfitDiff : ℚ
  maxDrawdownDiff : ℚ

/-- A comparison result: baseline run, modified run, and their diff. -/
structure BacktestComparison where
  baseline : BacktestRun
  modified : BacktestRun
  diff : BacktestDiff

/-- Modelled from the spec: the diff of `/api/backtest/compare` is computed
by the backend, which is not part of this repository's sources; per the
spec, each diff field is the signed delta `modified − baseline` of the
corresponding scalar.  `compareBacktest` in `lib/hooks.ts` only posts the
request and returns the backend's result unchanged. -/
def compareBacktests (baseline modified : BacktestRun) : BacktestComparison :=
  ⟨baseline, modified,
    ⟨modified.totalTrades - baseline.totalTrades,
     modified.netProfit - baseline.netProfit,
     modified.maxDrawdown - baseline.maxDrawdown⟩⟩

/-- C9: for all runs A (baseline) and B (modified), the comparison's diff
fields are the signed deltas `modified − baseline` of the corresponding
scalars. -/
theorem compareBacktests_diff_signed_delta (a b : BacktestRun) :
    (compareBacktests a b).diff.netProfitDiff = b.netProfit - a.netProfit
  ∧ (compareBacktests a b).diff.totalTradesDiff = b.totalTrades - a.totalTrades
  ∧ (compareBacktests a b).diff.maxDrawdownDiff
      = b.maxDrawdown - a.maxDrawdown :=
  ⟨rfl, rfl, rfl⟩
